import Mathlib

/-!
Verification development for the `lens` repository, checking its
natural-language specification against the source.

The embedding covers the two core subsystems of the repo:

* the browser pool of `server/utils/screenshot.ts`
  (`OptimizedBrowserPool.getPage` / `releasePage`, `takeScreenshot`,
  `generateCacheKey`, and the response content-type selection of
  `screenshotPlugin`);
* the adaptive multi-tier cache of `server/utils/storage.ts`
  (`createAdaptiveCacheStorage` layer composition, the `cacheStorage`
  namespace accessors with their default TTLs, and the OG-image cache-key
  construction of `generateOGImage`), together with the memory-pressure
  gate of the resource manager (`isMemoryPressure`,
  `isProcessingOverloaded` in `image.ts`).

Stateful TypeScript is embedded as explicit state passing over a
`PoolState`; JavaScript arrays become `List`s with index-based access
(`getAt` / `setAt` model reading and in-place assignment of an array
slot); machine timestamps (`lastUsed`) are omitted because no verified
claim concerns idle reclamation.  JavaScript truthiness of optional
numbers/strings (`x || d`) is modelled by `jsOrNat` / `jsStrOr`.
-/

/-! ## List helpers: array slot read and in-place update -/

/-- Read slot `i` of a JS array (out of range gives `none`). -/
def getAt {α : Type} : List α → Nat → Option α
  | [], _ => none
  | x :: _, 0 => some x
  | _ :: xs, n + 1 => getAt xs n

/-- Assign slot `i` of a JS array (out of range leaves the list unchanged). -/
def setAt {α : Type} : List α → Nat → α → List α
  | [], _, _ => []
  | _ :: xs, 0, a => a :: xs
  | x :: xs, n + 1, a => x :: setAt xs n a

theorem length_setAt {α : Type} (l : List α) (i : Nat) (a : α) :
    (setAt l i a).length = l.length := by
  induction l generalizing i with
  | nil => rfl
  | cons x xs ih =>
    cases i with
    | zero => rfl
    | succ n => simpa [setAt] using ih n

theorem mem_setAt {α : Type} {l : List α} {i : Nat} {a b : α}
    (h : b ∈ setAt l i a) : b ∈ l ∨ b = a := by
  induction l generalizing i with
  | nil => simp [setAt] at h
  | cons x xs ih =>
    cases i with
    | zero =>
      rcases List.mem_cons.mp h with h1 | h1
      · exact Or.inr h1
      · exact Or.inl (List.mem_cons_of_mem _ h1)
    | succ n =>
      rcases List.mem_cons.mp h with h1 | h1
      · exact Or.inl (h1 ▸ List.mem_cons_self _ _)
      · rcases ih h1 with h2 | h2
        · exact Or.inl (List.mem_cons_of_mem _ h2)
        · exact Or.inr h2

theorem getAt_setAt_self {α : Type} {l : List α} {i : Nat} {b : α} (a : α)
    (h : getAt l i = some b) : getAt (setAt l i a) i = some a := by
  induction l generalizing i with
  | nil => simp [getAt] at h
  | cons x xs ih =>
    cases i with
    | zero => rfl
    | succ n => exact ih h

theorem getAt_append_length {α : Type} (l : List α) (a : α) :
    getAt (l ++ [a]) l.length = some a := by
  induction l with
  | nil => rfl
  | cons x xs ih => simpa [getAt] using ih

/-! ## Data model of the browser pool (`screenshot.ts`) -/

/-- Screenshot output format (`"png" | "jpeg" | "webp"`). -/
inductive Format where
  | png
  | jpeg
  | webp
deriving DecidableEq, Repr

/-- Structure `ScreenshotOptions` of `screenshot.ts` (the fields the verified claims
depend on; `waitUntil` is never read by the pool or key construction). -/
structure ScreenshotOptions where
  url : String
  width : Option Nat := none
  height : Option Nat := none
  fullPage : Option Bool := none
  format : Option Format := none
  quality : Option Nat := none
  deviceScaleFactor : Option Nat := none
  mobile : Option Bool := none
  darkMode : Option Bool := none
  delay : Option Nat := none
deriving DecidableEq, Repr

/-- JS `x || d` on an optional number: `undefined` and `0` are falsy. -/
def jsOrNat : Option Nat → Nat → Nat
  | some 0, d => d
  | some n, _ => n
  | none, d => d

/-- JS truthiness of an optional boolean (`undefined` behaves as `false`). -/
def truthy : Option Bool → Bool
  | some b => b
  | none => false

/-- The viewport/configuration fingerprint of a request: the data
`createContext` bakes into a browser context (viewport from
`options.width || 1280` / `options.height || 720`, dark-mode init script,
mobile emulation). -/
structure Fingerprint where
  width : Nat
  height : Nat
  darkMode : Bool
  mobile : Bool
deriving DecidableEq, Repr

/-- Fingerprint determined by `ScreenshotOptions`, following
`createContext`. -/
def fingerprintOf (o : ScreenshotOptions) : Fingerprint :=
  { width := jsOrNat o.width 1280
    height := jsOrNat o.height 720
    darkMode := truthy o.darkMode
    mobile := truthy o.mobile }

/-- A page handle: its identity plus the execution context backing it.
Context identities are allocated from the pool's `nextCtx` counter, so two
pages share a backing `BrowserContext` exactly when their `ctxId`s agree. -/
structure PageRec where
  pageId : Nat
  ctxId : Nat
deriving DecidableEq, Repr

/-- Structure `PooledBrowser` of `screenshot.ts` (timestamps omitted; `contextId` /
`contextFp` identify the current `context` and the options it was created
with). -/
structure PooledBrowser where
  connected : Bool
  contextId : Nat
  contextFp : Fingerprint
  availablePages : List PageRec
  activePagesCount : Nat
deriving DecidableEq, Repr

/-- Pool state: `OptimizedBrowserPool.browsers` plus fresh-identity
counters for contexts and pages. -/
structure PoolState where
  browsers : List PooledBrowser
  nextCtx : Nat
  nextPage : Nat
deriving DecidableEq, Repr

/-- Constant `maxBrowsers = 2` of `OptimizedBrowserPool`. -/
def maxBrowsers : Nat := 2

/-- Constant `maxPagesPerBrowser = 5` of `OptimizedBrowserPool`. -/
def maxPagesPerBrowser : Nat := 5

/-- A handle returned by `getPage`: the index of the pooled browser whose
closure the `releasePage` callback captures, and the page itself. -/
structure Handle where
  browserIdx : Nat
  page : PageRec
deriving DecidableEq, Repr

/-- The predicate of the `browsers.find` call in `getPage` (line 51):
connected, has an available page, and below the per-browser cap.  Note it
does not inspect the viewport fingerprint. -/
def availablePred (b : PooledBrowser) : Bool :=
  b.connected && !b.availablePages.isEmpty &&
    decide (b.activePagesCount < maxPagesPerBrowser)

/-- Index of the first browser satisfying `availablePred`
(`Array.prototype.find` returns the first match). -/
def findAvailableIdx : List PooledBrowser → Option Nat
  | [] => none
  | b :: bs =>
    if availablePred b then some 0 else (findAvailableIdx bs).map (· + 1)

/-- Leftmost connected browser with minimal `activePagesCount`, returned
as (index, count).  This is
`browsers.filter(connected).sort((a,b) => a.activePagesCount - b.activePagesCount)[0]`:
JS `sort` is stable, so ties resolve to the earliest browser. -/
def leastLoadedAux : List PooledBrowser → Option (Nat × Nat)
  | [] => none
  | b :: bs =>
    match leastLoadedAux bs with
    | none => if b.connected then some (0, b.activePagesCount) else none
    | some (j, m) =>
      if b.connected then
        if b.activePagesCount ≤ m then some (0, b.activePagesCount)
        else some (j + 1, m)
      else some (j + 1, m)

/-- Index of the least-loaded connected browser (fallback path of
`getPage`). -/
def leastLoadedIdx (bs : List PooledBrowser) : Option Nat :=
  (leastLoadedAux bs).map (·.1)

/-- Method `createBrowser`: launch a browser and create a context for the
requested options; the new browser starts with no available pages and a
zero active count and is appended to `this.browsers`. -/
def createBrowserM (s : PoolState) (o : ScreenshotOptions) : PoolState :=
  { s with
    browsers := s.browsers ++
      [{ connected := true, contextId := s.nextCtx,
         contextFp := fingerprintOf o, availablePages := [],
         activePagesCount := 0 }]
    nextCtx := s.nextCtx + 1 }

/-- The context-rebuild of the fallback path (lines 70-75): close the old
context, create a fresh one for the new options, clear
`availablePages`. -/
def recreateContext (s : PoolState) (i : Nat) (o : ScreenshotOptions) :
    PoolState :=
  match getAt s.browsers i with
  | none => s
  | some b =>
    let b2 := { b with contextId := s.nextCtx, contextFp := fingerprintOf o,
                       availablePages := [] }
    { s with browsers := setAt s.browsers i b2,
             nextCtx := s.nextCtx + 1 }

/-- The common tail of `getPage` (lines 82-92): pop an available page
(`availablePages.pop()` removes the last element; `resetPage` navigates it
to `about:blank` without changing its context) or create a fresh page in
the browser's current context, then increment `activePagesCount`.
The `none` branch is unreachable in the uses below (the index always comes
from a valid find/create/fallback) and only makes the function total. -/
def acquireFrom (s : PoolState) (i : Nat) : Handle × PoolState :=
  match getAt s.browsers i with
  | none => (⟨i, ⟨0, 0⟩⟩, s)
  | some b =>
    match b.availablePages.getLast? with
    | some p =>
      let b2 := { b with availablePages := b.availablePages.dropLast,
                         activePagesCount := b.activePagesCount + 1 }
      (⟨i, p⟩, { s with browsers := setAt s.browsers i b2 })
    | none =>
      let b2 := { b with activePagesCount := b.activePagesCount + 1 }
      (⟨i, ⟨s.nextPage, b.contextId⟩⟩,
       { s with browsers := setAt s.browsers i b2,
                nextPage := s.nextPage + 1 })

/-- Method `OptimizedBrowserPool.getPage`: find a browser with an available page
below the cap; otherwise create a new browser while under `maxBrowsers`;
otherwise repurpose the least-loaded connected browser after rebuilding
its context.  `none` models the `"No available browsers in pool"` error
(reachable only when every browser is disconnected). -/
def getPage (s : PoolState) (o : ScreenshotOptions) :
    Option (Handle × PoolState) :=
  match findAvailableIdx s.browsers with
  | some i => some (acquireFrom s i)
  | none =>
    if s.browsers.length < maxBrowsers then
      some (acquireFrom (createBrowserM s o) s.browsers.length)
    else
      match leastLoadedIdx s.browsers with
      | none => none
      | some i => some (acquireFrom (recreateContext s i o) i)

/-- The `releasePage` closure returned by `getPage`: decrement the
captured browser's `activePagesCount` and push the page onto its
`availablePages`. -/
def releasePage (s : PoolState) (h : Handle) : PoolState :=
  match getAt s.browsers h.browserIdx with
  | none => s
  | some b =>
    let b2 := { b with activePagesCount := b.activePagesCount - 1,
                       availablePages := b.availablePages ++ [h.page] }
    { s with browsers := setAt s.browsers h.browserIdx b2 }

/-- The pool at process start: empty browser list. -/
def emptyPool : PoolState := { browsers := [], nextCtx := 0, nextPage := 0 }

/-- Total number of simultaneously un-released page handles. -/
def totalActive (s : PoolState) : Nat :=
  (s.browsers.map (·.activePagesCount)).sum

/-- Per-browser capacity predicate of the spec's capacity invariant. -/
def capOk (s : PoolState) : Prop :=
  ∀ b ∈ s.browsers, b.activePagesCount ≤ maxPagesPerBrowser

/-! ## `takeScreenshot`, cache key and response content type
(`screenshot.ts`) -/

/-- Default options used in concrete witnesses (a bare `url` query). -/
def defaultOpts : ScreenshotOptions := { url := "https://example.com" }

/-- The `type` passed to `page.screenshot`:
`(options.format === "webp" ? "png" : options.format) || "png"` — WebP is
silently downgraded to PNG. -/
def screenshotType (o : ScreenshotOptions) : Format :=
  match o.format with
  | some Format.webp => Format.png
  | some f => f
  | none => Format.png

/-- The `Content-Type` header chosen by `screenshotPlugin` for both the
cache-hit and cache-miss responses. -/
def contentTypeFor (o : ScreenshotOptions) : String :=
  if o.format = some Format.jpeg then "image/jpeg"
  else if o.format = some Format.webp then "image/webp"
  else "image/png"

/-- Function `takeScreenshot`: acquire a page, run the render operation
(navigate + optional delay + capture, here an oracle `renderResult`
standing for the bytes or the thrown error/timeout), and release the page
in the `finally` block on every path. -/
def takeScreenshot (s : PoolState) (o : ScreenshotOptions)
    (renderResult : Except String (List Nat)) :
    Except String (List Nat) × PoolState :=
  match getPage s o with
  | none => (Except.error "No available browsers in pool", s)
  | some (h, s1) => (renderResult, releasePage s1 h)

/-- String of a `Format`, as it appears in the cache key. -/
def formatStr : Format → String
  | Format.png => "png"
  | Format.jpeg => "jpeg"
  | Format.webp => "webp"

/-- Function `generateCacheKey` of `screenshot.ts`: the nine `parts` joined with
`":"`.  Note `deviceScaleFactor`, `delay` and `waitUntil` are not part of
the key. -/
def generateCacheKey (o : ScreenshotOptions) : String :=
  String.intercalate ":"
    ["screenshot-v2", o.url,
     toString (jsOrNat o.width 1280), toString (jsOrNat o.height 720),
     if truthy o.fullPage then "full" else "viewport",
     formatStr (o.format.getD Format.png),
     toString (jsOrNat o.quality 80),
     if truthy o.mobile then "mobile" else "desktop",
     if truthy o.darkMode then "dark" else "light"]

/-- The configuration `createContext` derives from the options: viewport,
optional device scale factor (`if (options.deviceScaleFactor)` is JS
truthiness, so `0` counts as unset; the source value is a float clamped to
[1,2], modelled here at integral values since the claims only distinguish
1 from 2), mobile emulation and the dark-mode init script. -/
structure ContextConfig where
  width : Nat
  height : Nat
  deviceScaleFactor : Option Nat
  isMobile : Bool
  darkMode : Bool
deriving DecidableEq, Repr

/-- Configuration `createContext` derives as a function of the options. -/
def contextConfigOf (o : ScreenshotOptions) : ContextConfig :=
  { width := jsOrNat o.width 1280
    height := jsOrNat o.height 720
    deviceScaleFactor :=
      match o.deviceScaleFactor with
      | some 0 => none
      | x => x
    isMobile := truthy o.mobile
    darkMode := truthy o.darkMode }

/-! ## OG image parameters and cache key (`og.ts` / `generateOGImage`) -/

/-- Query parameters of the `/og` endpoint as they reach
`generateOGImage` (numeric fields modelled post-`parseInt`: `none` stands
for a missing or non-numeric value). -/
structure OGQuery where
  title : Option String := none
  description : Option String := none
  width : Option Nat := none
  height : Option Nat := none
  fontSize : Option Nat := none
  theme : Option String := none
deriving DecidableEq, Repr

/-- JS `x || d` on an optional string: `undefined` and `""` are falsy. -/
def jsStrOr : Option String → String → String
  | some "", d => d
  | some s, _ => s
  | none, d => d

/-- Title parsing: `String(query.title || "Default Title").slice(0, 100)`. -/
def ogTitle (q : OGQuery) : String := (jsStrOr q.title "Default Title").take 100

/-- Description parsing:
`query.description ? String(query.description).slice(0, 200) : undefined`
(the empty string is falsy and yields `undefined`). -/
def ogDescription (q : OGQuery) : Option String :=
  match q.description with
  | some "" => none
  | some d => some (d.take 200)
  | none => none

/-- Width parsing:
`Math.max(200, Math.min(parseInt(String(query.width)) || 1200, 2000))`. -/
def ogWidth (q : OGQuery) : Nat := max 200 (min (jsOrNat q.width 1200) 2000)

/-- Height parsing:
`Math.max(200, Math.min(parseInt(String(query.height)) || 630, 2000))`. -/
def ogHeight (q : OGQuery) : Nat := max 200 (min (jsOrNat q.height 630) 2000)

/-- Font-size parsing:
`Math.max(12, Math.min(parseInt(String(query.fontSize)) || 48, 120))`. -/
def ogFontSize (q : OGQuery) : Nat := max 12 (min (jsOrNat q.fontSize 48) 120)

/-- Theme selection: a member of the fixed list, else `"light"`
(`String(undefined)` is `"undefined"`, which is not in the list). -/
def ogTheme (q : OGQuery) : String :=
  match q.theme with
  | some t => if t ∈ ["light", "dark", "blue", "green"] then t else "light"
  | none => "light"

/-- The template literal
`` `og:${title}:${description}:${width}:${height}:${fontSize}:${theme}` ``
(an `undefined` description interpolates as the text `"undefined"`). -/
def ogCacheKey (q : OGQuery) : String :=
  "og:" ++ ogTitle q ++ ":" ++
    (match ogDescription q with
     | some d => d
     | none => "undefined") ++ ":" ++
    toString (ogWidth q) ++ ":" ++ toString (ogHeight q) ++ ":" ++
    toString (ogFontSize q) ++ ":" ++ ogTheme q

/-! ## Namespaced cache accessors and default TTLs (`storage.ts`,
`cacheStorage`) -/

/-- The five namespaces of `cacheStorage`. -/
inductive CacheNamespace where
  | screenshots
  | ogImages
  | fonts
  | favicons
  | metadata
deriving DecidableEq, Repr

/-- The key prefix each accessor prepends. -/
def keyPrefix : CacheNamespace → String
  | CacheNamespace.screenshots => "screenshot:"
  | CacheNamespace.ogImages => "og:"
  | CacheNamespace.fonts => "font:"
  | CacheNamespace.favicons => "favicon:"
  | CacheNamespace.metadata => "meta:"

/-- The default TTL (seconds) of each accessor's `set`, read off the
default parameter values in `cacheStorage`
(`ttl = 3600`, `86400`, `86400 * 30`, `86400 * 7`, `86400`). -/
def defaultTtl : CacheNamespace → Nat
  | CacheNamespace.screenshots => 3600
  | CacheNamespace.ogImages => 86400
  | CacheNamespace.fonts => 86400 * 30
  | CacheNamespace.favicons => 86400 * 7
  | CacheNamespace.metadata => 86400

/-! ## Adaptive tier composition (`createAdaptiveCacheStorage`) -/

/-- The kind of each backing layer pushed by
`createAdaptiveCacheStorage`. -/
inductive TierKind where
  | memory
  | redis
  | minio
  | fs
deriving DecidableEq, Repr

/-- The environment facts the layer composition depends on:
`detectEnvironment().hasRedis` / `.hasMinIO`, and whether
`createRedisDriver()` / `createMinIODriver()` returned a driver rather
than `null`. -/
structure CacheEnv where
  hasRedis : Bool
  redisOk : Bool
  hasMinIO : Bool
  minioOk : Bool
deriving DecidableEq, Repr

/-- The `layers` list built by `createAdaptiveCacheStorage`: memory first,
then Redis and MinIO/S3 when configured and constructible, filesystem
last. -/
def adaptiveLayers (env : CacheEnv) : List TierKind :=
  [TierKind.memory] ++
    (if env.hasRedis && env.redisOk then [TierKind.redis] else []) ++
    (if env.hasMinIO && env.minioOk then [TierKind.minio] else []) ++
    [TierKind.fs]

/-! ## Overlay cache semantics

Modelled from the spec: the overlay driver that
`createAdaptiveCacheStorage` wraps the layers in comes from the
`unstorage` package, whose implementation is not part of this
repository's sources; its tier semantics are therefore modelled from
spec §4.1-§4.2: a tier is a key/value byte store with independent
availability whose failed operations report absent/failed instead of
throwing; the overlay reads tiers in priority order returning the first
hit, read-heals faster tiers, and writes all tiers, succeeding when the
first tier succeeds. -/

/-- Modelled from the spec: one backing tier (§4.1) — an association list
of stored bytes plus an availability flag; an unavailable tier's `get`
reports absent and its `set` fails without effect, never raising. -/
structure Tier where
  avail : Bool
  data : List (String × List Nat)
deriving DecidableEq, Repr

/-- Modelled from the spec: tier read (`get(key) -> bytes|absent`). -/
def tierGet (t : Tier) (k : String) : Option (List Nat) :=
  if t.avail then (t.data.find? (fun p => p.1 == k)).map (·.2) else none

/-- Modelled from the spec: tier write (`set -> ok|failed`, non-throwing);
a write to an unavailable tier is a failed no-op. -/
def tierSet (t : Tier) (k : String) (v : List Nat) : Tier :=
  if t.avail then { t with data := (k, v) :: t.data } else t

/-- Modelled from the spec: overlay read (§4.2) — probe tiers in priority
order, return the first hit. -/
def overlayGet : List Tier → String → Option (List Nat)
  | [], _ => none
  | t :: ts, k =>
    match tierGet t k with
    | some v => some v
    | none => overlayGet ts k

/-- Modelled from the spec: overlay read with read-heal (§4.2) — return
the first hit and repopulate every faster tier that missed (the heal is
asynchronous best-effort in the spec; here the settled post-heal tier
state is returned alongside the value). -/
def overlayGetHeal : List Tier → String → Option (List Nat) × List Tier
  | [], _ => (none, [])
  | t :: ts, k =>
    match tierGet t k with
    | some v => (some v, t :: ts)
    | none =>
      match overlayGetHeal ts k with
      | (some v, ts2) => (some v, tierSet t k v :: ts2)
      | (none, ts2) => (none, t :: ts2)

/-- Modelled from the spec: overlay write (§4.2) — write to all tiers in
parallel. -/
def overlaySet (ts : List Tier) (k : String) (v : List Nat) : List Tier :=
  ts.map (fun t => tierSet t k v)

/-- Modelled from the spec: the overlay write is considered successful
when the first (primary in-memory) tier's write succeeds; failures of
non-first tiers are non-fatal and do not affect the outcome. -/
def overlaySetOk (ts : List Tier) : Bool :=
  match ts with
  | [] => false
  | t :: _ => t.avail

/-! ## Resource pressure gate (`memory.ts` resource manager, `image.ts`) -/

/-- Method `ResourceManager.isMemoryPressure`:
`heapUsed / heapTotal > 0.85`, as the exact comparison
`100 * heapUsed > 85 * heapTotal`. -/
def isMemoryPressure (heapUsed heapTotal : Nat) : Bool :=
  decide (85 * heapTotal < 100 * heapUsed)

/-- Function `isProcessingOverloaded` of `image.ts`:
`processingCount > MAX_CONCURRENT_PROCESSING || isMemoryPressure()`
(`maxConc` stands for the machine-dependent
`MAX_CONCURRENT_PROCESSING`). -/
def isProcessingOverloaded (maxConc processingCount heapUsed heapTotal :
    Nat) : Bool :=
  decide (maxConc < processingCount) || isMemoryPressure heapUsed heapTotal

/-- Outcome of the `/img/*` endpoint's admission check. -/
inductive ImageAdmission where
  | reject (status : Nat) (retryAfter : String)
  | proceed
deriving DecidableEq, Repr

/-- The admission gate at the top of `processImage`: when overloaded,
respond `503` with `Retry-After: 30`; otherwise proceed to processing. -/
def imageAdmit (maxConc processingCount heapUsed heapTotal : Nat) :
    ImageAdmission :=
  if isProcessingOverloaded maxConc processingCount heapUsed heapTotal then
    ImageAdmission.reject 503 "30"
  else
    ImageAdmission.proceed
/-! ## Concrete scenarios referenced by the verification results -/

/-- Iterated acquisition: `n` successive `getPage` calls with no
intervening release (each caller still holds its handle). -/
def acquireN : Nat → PoolState → PoolState
  | 0, s => s
  | n + 1, s =>
    match getPage s defaultOpts with
    | some (_, s2) => acquireN n s2
    | none => s

/-- The pool after one `getPage` on an empty pool: one freshly launched
browser whose single page is checked out. -/
def poolAfterFirstAcquire : PoolState :=
  { browsers := [{ connected := true, contextId := 0,
                   contextFp := fingerprintOf defaultOpts,
                   availablePages := [], activePagesCount := 1 }],
    nextCtx := 1, nextPage := 1 }

/-- First request of the fingerprint-isolation scenario: 800px viewport. -/
def c2opts1 : ScreenshotOptions :=
  { url := "https://example.com", width := some 800 }

/-- Second request of the fingerprint-isolation scenario: 400px
viewport — a different fingerprint. -/
def c2opts2 : ScreenshotOptions :=
  { url := "https://example.com", width := some 400 }

/-- Run acquire(c2opts1); release; acquire(c2opts2) on an empty pool and
report the backing context ids of the two returned handles. -/
def c2ContextPair : Option (Nat × Nat) :=
  match getPage emptyPool c2opts1 with
  | some (h1, s1) =>
    match getPage (releasePage s1 h1) c2opts2 with
    | some (h2, _) => some (h1.page.ctxId, h2.page.ctxId)
    | none => none
  | none => none

/-- OG request 1 of the key-collision scenario: title `"a:b"`,
description `"c"`. -/
def c7q1 : OGQuery := { title := some "a:b", description := some "c" }

/-- OG request 2 of the key-collision scenario: title `"a"`,
description `"b:c"` — a different title/description pair. -/
def c7q2 : OGQuery := { title := some "a", description := some "b:c" }

/-- Screenshot request with `deviceScaleFactor=1`. -/
def c7o1 : ScreenshotOptions :=
  { url := "https://example.com", deviceScaleFactor := some 1 }

/-- Screenshot request with `deviceScaleFactor=2` (different rendered
pixel density, hence different output bytes). -/
def c7o2 : ScreenshotOptions :=
  { url := "https://example.com", deviceScaleFactor := some 2 }

/-! ## Supporting lemmas about the pool operations -/
theorem acquireFrom_spec {s : PoolState} {i : Nat} {b : PooledBrowser}
    (h : getAt s.browsers i = some b) :
    (acquireFrom s i).1.browserIdx = i ∧
    ∃ b2, getAt (acquireFrom s i).2.browsers i = some b2 ∧
      b2.activePagesCount = b.activePagesCount + 1 := by
  cases hl : b.availablePages.getLast? with
  | some p =>
    simp only [acquireFrom, h, hl]
    exact ⟨trivial, _, getAt_setAt_self _ h, rfl⟩
  | none =>
    simp only [acquireFrom, h, hl]
    exact ⟨trivial, _, getAt_setAt_self _ h, rfl⟩

theorem acquireFrom_mem {s : PoolState} {i : Nat} {b : PooledBrowser}
    (h : getAt s.browsers i = some b) :
    ∀ b2 ∈ (acquireFrom s i).2.browsers,
      b2 ∈ s.browsers ∨ b2.activePagesCount = b.activePagesCount + 1 := by
  intro b2 hb2
  cases hl : b.availablePages.getLast? with
  | some p =>
    simp only [acquireFrom, h, hl] at hb2
    rcases mem_setAt hb2 with h2 | h2
    · exact Or.inl h2
    · exact Or.inr (by rw [h2])
  | none =>
    simp only [acquireFrom, h, hl] at hb2
    rcases mem_setAt hb2 with h2 | h2
    · exact Or.inl h2
    · exact Or.inr (by rw [h2])

theorem acquireFrom_length (s : PoolState) (i : Nat) :
    (acquireFrom s i).2.browsers.length = s.browsers.length := by
  cases hg : getAt s.browsers i with
  | none => simp only [acquireFrom, hg]
  | some b =>
    cases hl : b.availablePages.getLast? with
    | some p => simp only [acquireFrom, hg, hl, length_setAt]
    | none => simp only [acquireFrom, hg, hl, length_setAt]

theorem recreateContext_length (s : PoolState) (i : Nat)
    (o : ScreenshotOptions) :
    (recreateContext s i o).browsers.length = s.browsers.length := by
  cases hg : getAt s.browsers i with
  | none => simp only [recreateContext, hg]
  | some b => simp only [recreateContext, hg, length_setAt]

theorem getAt_mem {α : Type} {l : List α} {i : Nat} {b : α}
    (h : getAt l i = some b) : b ∈ l := by
  induction l generalizing i with
  | nil => simp [getAt] at h
  | cons x xs ih =>
    cases i with
    | zero =>
      simp [getAt] at h
      exact h ▸ List.mem_cons_self _ _
    | succ n => exact List.mem_cons_of_mem _ (ih h)

theorem getAt_map {α β : Type} (f : α → β) (l : List α) (i : Nat) :
    getAt (l.map f) i = (getAt l i).map f := by
  induction l generalizing i with
  | nil => rfl
  | cons x xs ih =>
    cases i with
    | zero => rfl
    | succ n => simpa [getAt] using ih n

theorem findAvailableIdx_spec {l : List PooledBrowser} {i : Nat}
    (h : findAvailableIdx l = some i) :
    ∃ b, getAt l i = some b ∧ availablePred b = true := by
  induction l generalizing i with
  | nil => simp [findAvailableIdx] at h
  | cons b bs ih =>
    by_cases hp : availablePred b
    · simp [findAvailableIdx, hp] at h
      exact ⟨b, by simp [getAt, ← h], hp⟩
    · simp [findAvailableIdx, hp] at h
      cases hf : findAvailableIdx bs with
      | none => rw [hf] at h; simp at h
      | some j =>
        rw [hf] at h
        simp at h
        obtain ⟨b2, hb2, hpred⟩ := ih hf
        exact ⟨b2, by simpa [← h, getAt] using hb2, hpred⟩

theorem leastLoadedAux_spec {l : List PooledBrowser} {j m : Nat}
    (h : leastLoadedAux l = some (j, m)) :
    ∃ b, getAt l j = some b ∧ b.activePagesCount = m := by
  induction l generalizing j m with
  | nil => simp [leastLoadedAux] at h
  | cons b bs ih =>
    cases haux : leastLoadedAux bs with
    | none =>
      simp only [leastLoadedAux, haux] at h
      by_cases hc : b.connected
      · simp only [hc, if_true] at h
        obtain ⟨h1, h2⟩ : 0 = j ∧ b.activePagesCount = m := by
          simpa using h
        subst h1
        subst h2
        exact ⟨b, rfl, rfl⟩
      · simp [hc] at h
    | some jm =>
      obtain ⟨j2, m2⟩ := jm
      simp only [leastLoadedAux, haux] at h
      by_cases hc : b.connected
      · simp only [hc, if_true] at h
        by_cases hle : b.activePagesCount ≤ m2
        · simp only [hle, if_true] at h
          obtain ⟨h1, h2⟩ : 0 = j ∧ b.activePagesCount = m := by
            simpa using h
          subst h1
          subst h2
          exact ⟨b, rfl, rfl⟩
        · simp only [hle, if_false] at h
          obtain ⟨h1, h2⟩ : j2 + 1 = j ∧ m2 = m := by simpa using h
          subst h1
          subst h2
          obtain ⟨b2, hb2, hm⟩ := ih haux
          exact ⟨b2, hb2, hm⟩
      · simp only [hc, if_false] at h
        obtain ⟨h1, h2⟩ : j2 + 1 = j ∧ m2 = m := by simpa using h
        subst h1
        subst h2
        obtain ⟨b2, hb2, hm⟩ := ih haux
        exact ⟨b2, hb2, hm⟩

theorem leastLoadedIdx_spec {l : List PooledBrowser} {i : Nat}
    (h : leastLoadedIdx l = some i) : ∃ b, getAt l i = some b := by
  unfold leastLoadedIdx at h
  cases haux : leastLoadedAux l with
  | none => rw [haux] at h; simp at h
  | some jm =>
    obtain ⟨j, m⟩ := jm
    rw [haux] at h
    simp at h
    obtain ⟨b, hb, _⟩ := leastLoadedAux_spec haux
    exact ⟨b, h ▸ hb⟩

theorem getPage_shape {s : PoolState} {o : ScreenshotOptions} {h : Handle}
    {s1 : PoolState} (hg : getPage s o = some (h, s1)) :
    ∃ b1, getAt s1.browsers h.browserIdx = some b1 ∧
      1 ≤ b1.activePagesCount := by
  unfold getPage at hg
  cases hf : findAvailableIdx s.browsers with
  | some i =>
    rw [hf] at hg
    simp at hg
    obtain ⟨b, hb, _⟩ := findAvailableIdx_spec hf
    obtain ⟨hidx, b2, hb2, hcount⟩ := acquireFrom_spec hb
    have h1 : (acquireFrom s i).2 = s1 := by rw [hg]
    have h2 : (acquireFrom s i).1 = h := by rw [hg]
    subst h1
    subst h2
    rw [hidx]
    exact ⟨b2, hb2, by omega⟩
  | none =>
    rw [hf] at hg
    by_cases hlen : s.browsers.length < maxBrowsers
    · simp [hlen] at hg
      have hb : getAt (createBrowserM s o).browsers s.browsers.length =
          some { connected := true, contextId := s.nextCtx,
                 contextFp := fingerprintOf o, availablePages := [],
                 activePagesCount := 0 } := by
        unfold createBrowserM
        exact getAt_append_length _ _
      obtain ⟨hidx, b2, hb2, hcount⟩ := acquireFrom_spec hb
      have h1 : (acquireFrom (createBrowserM s o) s.browsers.length).2 = s1 := by
        rw [hg]
      have h2 : (acquireFrom (createBrowserM s o) s.browsers.length).1 = h := by
        rw [hg]
      subst h1
      subst h2
      rw [hidx]
      exact ⟨b2, hb2, by omega⟩
    · simp [hlen] at hg
      cases hll : leastLoadedIdx s.browsers with
      | none => rw [hll] at hg; simp at hg
      | some i =>
        rw [hll] at hg
        simp at hg
        obtain ⟨b, hb⟩ := leastLoadedIdx_spec hll
        have hb2 : getAt (recreateContext s i o).browsers i =
            some { b with contextId := s.nextCtx,
                          contextFp := fingerprintOf o,
                          availablePages := [] } := by
          simp only [recreateContext, hb]
          exact getAt_setAt_self _ hb
        obtain ⟨hidx, b3, hb3, hcount⟩ := acquireFrom_spec hb2
        have h1 : (acquireFrom (recreateContext s i o) i).2 = s1 := by rw [hg]
        have h2 : (acquireFrom (recreateContext s i o) i).1 = h := by rw [hg]
        subst h1
        subst h2
        rw [hidx]
        exact ⟨b3, hb3, by omega⟩

theorem tierSet_avail (t : Tier) (k : String) (v : List Nat) :
    (tierSet t k v).avail = t.avail := by
  unfold tierSet
  split <;> rfl

theorem tierGet_tierSet_self {t : Tier} (k : String) (v : List Nat)
    (h : t.avail = true) : tierGet (tierSet t k v) k = some v := by
  simp [tierGet, tierSet, h]

theorem releasePage_cap {s : PoolState} {h2 : Handle} (hc : capOk s) :
    capOk (releasePage s h2) := by
  intro b2 hb2
  cases hg : getAt s.browsers h2.browserIdx with
  | none =>
    simp only [releasePage, hg] at hb2
    exact hc b2 hb2
  | some b =>
    simp only [releasePage, hg] at hb2
    rcases mem_setAt hb2 with h3 | h3
    · exact hc b2 h3
    · rw [h3]
      exact Nat.le_trans (Nat.sub_le _ _) (hc b (getAt_mem hg))

/-- C1 counterexample: eleven acquisitions with no release on an
initially empty pool leave eleven un-released handles — more than
`maxBrowsers * maxPagesPerBrowser = 10` — and drive one browser's
`activePagesCount` to `6 > maxPagesPerBrowser`, because the fallback
path of `getPage` never checks the per-browser cap. -/
theorem lens_c1_counterexample :
    totalActive (acquireN 11 emptyPool) = 11 ∧
    ¬ totalActive (acquireN 11 emptyPool) ≤ maxBrowsers * maxPagesPerBrowser ∧
    (acquireN 11 emptyPool).browsers.map (·.activePagesCount) = [6, 5] ∧
    ¬ capOk (acquireN 11 emptyPool) := by
  refine ⟨by decide, by decide, by decide, ?_⟩
  unfold capOk
  decide

/-- C1 (amended): the caps bound the fast path and creation only — any
`getPage` preserves the `maxBrowsers` bound on the browser count, and a
`getPage` served by the find path or by browser creation preserves
`activePagesCount ≤ maxPagesPerBrowser` for every browser (as does every
`releasePage`); the fallback path carries no such guarantee. -/
theorem lens_c1_capacity_amended (s : PoolState) (o : ScreenshotOptions)
    (h : Handle) (s1 : PoolState)
    (hget : getPage s o = some (h, s1))
    (hlen : s.browsers.length ≤ maxBrowsers) :
    s1.browsers.length ≤ maxBrowsers ∧
    (capOk s →
      ((findAvailableIdx s.browsers).isSome = true ∨
        s.browsers.length < maxBrowsers) →
      capOk s1) ∧
    (∀ h2 : Handle, capOk s → capOk (releasePage s h2)) := by
  have key : s1.browsers.length ≤ maxBrowsers ∧
      (capOk s →
        ((findAvailableIdx s.browsers).isSome = true ∨
          s.browsers.length < maxBrowsers) →
        capOk s1) := by
    unfold getPage at hget
    cases hf : findAvailableIdx s.browsers with
    | some i =>
      rw [hf] at hget
      simp at hget
      have hs1 : (acquireFrom s i).2 = s1 := by rw [hget]
      obtain ⟨b, hb, hpred⟩ := findAvailableIdx_spec hf
      have hcount : b.activePagesCount < maxPagesPerBrowser := by
        simp [availablePred] at hpred
        exact hpred.2
      constructor
      · rw [← hs1, acquireFrom_length]
        exact hlen
      · intro hcap _
        intro b2 hb2
        rw [← hs1] at hb2
        rcases acquireFrom_mem hb b2 hb2 with h3 | h3
        · exact hcap b2 h3
        · omega
    | none =>
      rw [hf] at hget
      by_cases hlen2 : s.browsers.length < maxBrowsers
      · simp [hlen2] at hget
        have hs1 : (acquireFrom (createBrowserM s o) s.browsers.length).2 =
            s1 := by rw [hget]
        have hb : getAt (createBrowserM s o).browsers s.browsers.length =
            some { connected := true, contextId := s.nextCtx,
                   contextFp := fingerprintOf o, availablePages := [],
                   activePagesCount := 0 } := by
          unfold createBrowserM
          exact getAt_append_length _ _
        constructor
        · rw [← hs1, acquireFrom_length]
          have hlen3 : (createBrowserM s o).browsers.length =
              s.browsers.length + 1 := by
            unfold createBrowserM
            simp
          omega
        · intro hcap _
          intro b2 hb2
          rw [← hs1] at hb2
          rcases acquireFrom_mem hb b2 hb2 with h3 | h3
          · unfold createBrowserM at h3
            simp at h3
            rcases h3 with h4 | h4
            · exact hcap b2 h4
            · rw [h4]
              simp [maxPagesPerBrowser]
          · simp at h3
            rw [h3]
            decide
      · simp [hlen2] at hget
        cases hll : leastLoadedIdx s.browsers with
        | none => rw [hll] at hget; simp at hget
        | some i =>
          rw [hll] at hget
          simp at hget
          have hs1 : (acquireFrom (recreateContext s i o) i).2 = s1 := by
            rw [hget]
          constructor
          · rw [← hs1, acquireFrom_length, recreateContext_length]
            exact hlen
          · intro _ hpath
            rcases hpath with h3 | h3
            · simp at h3
            · exact absurd h3 hlen2
  exact ⟨key.1, key.2, fun h2 hc => releasePage_cap hc⟩

/-- C1 amended witness: a concrete acquisition on an empty pool,
with the bounds evaluated. -/
theorem lens_c1_capacity_amended_witness :
    (getPage emptyPool defaultOpts =
        some (⟨0, ⟨0, 0⟩⟩, poolAfterFirstAcquire) ∧
      emptyPool.browsers.length ≤ maxBrowsers) ∧
    (poolAfterFirstAcquire.browsers.length ≤ maxBrowsers ∧
      (capOk emptyPool →
        ((findAvailableIdx emptyPool.browsers).isSome = true ∨
          emptyPool.browsers.length < maxBrowsers) →
        capOk poolAfterFirstAcquire) ∧
      (∀ h2 : Handle, capOk emptyPool → capOk (releasePage emptyPool h2))) :=
  ⟨⟨by decide, by decide⟩,
   lens_c1_capacity_amended emptyPool defaultOpts ⟨0, ⟨0, 0⟩⟩
     poolAfterFirstAcquire (by decide) (by decide)⟩

/-- C2: evaluating the code at the failing input — on an empty pool,
acquire with an 800px-wide viewport, release, then acquire with a
400px-wide viewport: the two requests have different fingerprints, yet
both handles are backed by execution context `0`, because the
browser-find predicate of `getPage` never compares the fingerprint
(despite the source comments "Create new browser if needed or viewport
doesn't match" / "recreate context if viewport differs"). -/
theorem lens_c2_fingerprint_sharing_bug :
    fingerprintOf c2opts1 ≠ fingerprintOf c2opts2 ∧
    c2ContextPair = some (0, 0) := by
  exact ⟨by decide, by decide⟩

/-- C3: if the render operation of `takeScreenshot` fails (throw or
timeout), the `finally` block still releases the handle: the error is
propagated, the final state is exactly `releasePage` applied to the
post-acquisition state, the captured browser's `activePagesCount` is
decremented back, and the page is pushed onto its `availablePages`. -/
theorem lens_c3_release_on_failure (s : PoolState) (o : ScreenshotOptions)
    (e : String) (h : Handle) (s1 : PoolState)
    (hget : getPage s o = some (h, s1)) :
    (takeScreenshot s o (Except.error e)).1 = Except.error e ∧
    (takeScreenshot s o (Except.error e)).2 = releasePage s1 h ∧
    ∃ b1 b2, getAt s1.browsers h.browserIdx = some b1 ∧
      getAt (releasePage s1 h).browsers h.browserIdx = some b2 ∧
      b2.activePagesCount + 1 = b1.activePagesCount ∧
      h.page ∈ b2.availablePages := by
  obtain ⟨b1, hb1, hpos⟩ := getPage_shape hget
  refine ⟨?_, ?_, b1,
    { b1 with activePagesCount := b1.activePagesCount - 1,
              availablePages := b1.availablePages ++ [h.page] },
    hb1, ?_, ?_, ?_⟩
  · simp [takeScreenshot, hget]
  · simp [takeScreenshot, hget]
  · simp only [releasePage, hb1]
    exact getAt_setAt_self _ hb1
  · show b1.activePagesCount - 1 + 1 = b1.activePagesCount
    omega
  · show h.page ∈ b1.availablePages ++ [h.page]
    simp

/-- C3 witness: the release-on-failure property evaluated at a concrete
timed-out operation on an empty pool. -/
theorem lens_c3_release_on_failure_witness :
    getPage emptyPool defaultOpts =
      some (⟨0, ⟨0, 0⟩⟩, poolAfterFirstAcquire) ∧
    ((takeScreenshot emptyPool defaultOpts (Except.error "timeout")).1 =
        Except.error "timeout" ∧
      (takeScreenshot emptyPool defaultOpts (Except.error "timeout")).2 =
        releasePage poolAfterFirstAcquire ⟨0, ⟨0, 0⟩⟩ ∧
      ∃ b1 b2,
        getAt poolAfterFirstAcquire.browsers (0 : Nat) = some b1 ∧
        getAt (releasePage poolAfterFirstAcquire ⟨0, ⟨0, 0⟩⟩).browsers
          (0 : Nat) = some b2 ∧
        b2.activePagesCount + 1 = b1.activePagesCount ∧
        (⟨0, 0⟩ : PageRec) ∈ b2.availablePages) :=
  ⟨by decide,
   lens_c3_release_on_failure emptyPool defaultOpts "timeout" ⟨0, ⟨0, 0⟩⟩
     poolAfterFirstAcquire (by decide)⟩

/-- C4: read-your-writes against the first in-memory tier — for every
key and byte payload, `set` followed immediately by `get` on the overlay
returns the payload, whatever the state or availability of every other
tier. -/
theorem lens_c4_read_your_writes (mem : Tier) (rest : List Tier)
    (k : String) (v : List Nat) (hmem : mem.avail = true) :
    overlayGet (overlaySet (mem :: rest) k v) k = some v := by
  have h1 : tierGet (tierSet mem k v) k = some v :=
    tierGet_tierSet_self k v hmem
  simp only [overlaySet, List.map_cons, overlayGet, h1]

/-- C4 witness: a concrete round trip with the only other tier
unreachable. -/
theorem lens_c4_read_your_writes_witness :
    (Tier.mk true []).avail = true ∧
    overlayGet
      (overlaySet [Tier.mk true [], Tier.mk false []] "k" [1, 2]) "k" =
      some [1, 2] :=
  ⟨rfl, lens_c4_read_your_writes (Tier.mk true []) [Tier.mk false []]
    "k" [1, 2] rfl⟩

theorem overlayGetHeal_cons_none {t0 : Tier} {ts : List Tier} {k : String}
    (h0 : tierGet t0 k = none) :
    overlayGetHeal (t0 :: ts) k =
      match overlayGetHeal ts k with
      | (some v, ts2) => (some v, tierSet t0 k v :: ts2)
      | (none, ts2) => (none, t0 :: ts2) := by
  simp [overlayGetHeal, h0]

/-- C5: overlay read-heal — when every tier before `hit` misses key `k`
and `hit` holds `v`, the overlay `get` returns `v`, and in the settled
post-heal tier state every available faster tier now yields `v` on a
direct read. -/
theorem lens_c5_read_heal (pre : List Tier) (hit : Tier) (post : List Tier)
    (k : String) (v : List Nat)
    (hpre : ∀ t ∈ pre, tierGet t k = none)
    (hhit : tierGet hit k = some v) :
    (overlayGetHeal (pre ++ hit :: post) k).1 = some v ∧
    ∀ t ∈ (overlayGetHeal (pre ++ hit :: post) k).2.take pre.length,
      t.avail = true → tierGet t k = some v := by
  induction pre with
  | nil =>
    constructor
    · simp [overlayGetHeal, hhit]
    · intro t ht
      simp at ht
  | cons t0 pre ih =>
    have h0 : tierGet t0 k = none := hpre t0 (List.mem_cons_self _ _)
    have hrest : ∀ t ∈ pre, tierGet t k = none :=
      fun t ht => hpre t (List.mem_cons_of_mem _ ht)
    obtain ⟨ih1, ih2⟩ := ih hrest
    cases hX : overlayGetHeal (pre ++ hit :: post) k with
    | mk fst snd =>
      rw [hX] at ih1 ih2
      simp at ih1
      subst ih1
      simp only at ih2
      have hstep : overlayGetHeal ((t0 :: pre) ++ hit :: post) k =
          (some v, tierSet t0 k v :: snd) := by
        rw [List.cons_append, overlayGetHeal_cons_none h0, hX]
      rw [hstep]
      constructor
      · rfl
      · intro t ht havail
        rw [show (t0 :: pre).length = pre.length + 1 from rfl,
            List.take_succ_cons] at ht
        rcases List.mem_cons.mp ht with h2 | h2
        · subst h2
          rw [tierSet_avail] at havail
          exact tierGet_tierSet_self k v havail
        · exact ih2 t h2 havail

/-- C5 witness: an empty available fast tier healed from a populated
slow tier. -/
theorem lens_c5_read_heal_witness :
    (∀ t ∈ [Tier.mk true []], tierGet t "k" = none) ∧
    tierGet (Tier.mk true [("k", [7])]) "k" = some [7] ∧
    ((overlayGetHeal
        ([Tier.mk true []] ++ Tier.mk true [("k", [7])] :: []) "k").1 =
      some [7] ∧
    ∀ t ∈ (overlayGetHeal
        ([Tier.mk true []] ++ Tier.mk true [("k", [7])] :: []) "k").2.take
          (List.length [Tier.mk true []]),
      t.avail = true → tierGet t "k" = some [7]) := by
  refine ⟨by decide, by decide, ?_⟩
  exact lens_c5_read_heal [Tier.mk true []] (Tier.mk true [("k", [7])]) []
    "k" [7] (by decide) (by decide)

/-- C6: overlay write propagation over the layer list actually built by
`createAdaptiveCacheStorage` — in every environment the first tier is the
in-memory tier and the last is the filesystem tier; `set` maps the tier
write over every configured tier (so each tier, the final filesystem one
included, receives the write); and the overall write outcome equals the
availability of the in-memory tier alone, so non-first tier failures are
non-fatal. -/
theorem lens_c6_write_propagation (env : CacheEnv) (assign : TierKind → Tier)
    (k : String) (v : List Nat) :
    (adaptiveLayers env).head? = some TierKind.memory ∧
    (adaptiveLayers env).getLast? = some TierKind.fs ∧
    (∀ i : Nat,
      getAt (overlaySet ((adaptiveLayers env).map assign) k v) i =
        (getAt ((adaptiveLayers env).map assign) i).map
          (fun t => tierSet t k v)) ∧
    overlaySetOk ((adaptiveLayers env).map assign) =
      (assign TierKind.memory).avail := by
  refine ⟨rfl, ?_, ?_, rfl⟩
  · obtain ⟨hr, ro, hm, mo⟩ := env
    cases hr <;> cases ro <;> cases hm <;> cases mo <;> rfl
  · intro i
    exact getAt_map _ _ _

set_option maxRecDepth 8000

/-- C7: evaluating the code at the failing inputs — the OG requests
(title `"a:b"`, description `"c"`) and (title `"a"`, description `"b:c"`)
are logically different (their rendered title/description texts differ)
yet construct the same cache key, because the key joins unescaped fields
with `":"`; and two screenshot requests differing only in
`deviceScaleFactor` (which changes the context configuration and hence
the rendered bytes) construct the same `generateCacheKey`, because the
key omits `deviceScaleFactor`. -/
theorem lens_c7_key_collision_bug :
    ogCacheKey c7q1 = ogCacheKey c7q2 ∧
    ogTitle c7q1 ≠ ogTitle c7q2 ∧
    ogDescription c7q1 ≠ ogDescription c7q2 ∧
    generateCacheKey c7o1 = generateCacheKey c7o2 ∧
    contextConfigOf c7o1 ≠ contextConfigOf c7o2 := by
  refine ⟨by decide, by decide, by decide, by decide, by decide⟩

/-- C8: evaluating the namespace TTL defaults — `ogImages`, `fonts`,
`favicons` and `metadata` match the documented 24h / 30d / 7d / 24h
defaults, but the screenshots accessor stores with a 3600-second (1 hour)
default, not the documented 24 hours. -/
theorem lens_c8_screenshot_ttl_bug :
    defaultTtl CacheNamespace.screenshots = 3600 ∧
    defaultTtl CacheNamespace.screenshots ≠ 86400 ∧
    defaultTtl CacheNamespace.ogImages = 86400 ∧
    defaultTtl CacheNamespace.fonts = 86400 * 30 ∧
    defaultTtl CacheNamespace.favicons = 86400 * 7 ∧
    defaultTtl CacheNamespace.metadata = 86400 := by
  decide

/-- C9 counterexample: with the heap at 90% (pressure signal true) and an
empty pool, `getPage` still succeeds and launches a renderer — the pool's
admission path takes no pressure input at all (the source `getPage` never
consults `isMemoryPressure`), so under pressure a request still acquires
a handle and a browser is launched rather than rejected. -/
theorem lens_c9_pressure_counterexample :
    isMemoryPressure 9 10 = true ∧
    (getPage emptyPool defaultOpts).isSome = true ∧
    ((getPage emptyPool defaultOpts).map
      (fun r => r.2.browsers.length)) = some 1 := by
  decide

/-- C9 (amended): the memory-pressure signal gates admission only in the
image-processing endpoint — whenever `isMemoryPressure` holds, the
`/img/*` admission check reports overload and rejects the request with a
retryable `503` / `Retry-After: 30`, before any processing. -/
theorem lens_c9_pressure_gates_image_only (maxConc processingCount
    heapUsed heapTotal : Nat)
    (hp : isMemoryPressure heapUsed heapTotal = true) :
    isProcessingOverloaded maxConc processingCount heapUsed heapTotal =
      true ∧
    imageAdmit maxConc processingCount heapUsed heapTotal =
      ImageAdmission.reject 503 "30" := by
  constructor
  · simp [isProcessingOverloaded, hp]
  · simp [imageAdmit, isProcessingOverloaded, hp]

/-- C9 amended witness: a 90%-heap request against the image endpoint. -/
theorem lens_c9_pressure_gates_image_only_witness :
    isMemoryPressure 9 10 = true ∧
    (isProcessingOverloaded 4 0 9 10 = true ∧
      imageAdmit 4 0 9 10 = ImageAdmission.reject 503 "30") :=
  ⟨by decide, lens_c9_pressure_gates_image_only 4 0 9 10 (by decide)⟩

/-- C10: for a `format=webp` request, the capture type handed to the
rendering engine is PNG (WebP is silently downgraded) while the HTTP
response declares `Content-Type: image/webp` — PNG bytes labeled as
WebP. -/
theorem lens_c10_webp_png_mislabeled (o : ScreenshotOptions)
    (hf : o.format = some Format.webp) :
    screenshotType o = Format.png ∧ contentTypeFor o = "image/webp" := by
  constructor
  · simp [screenshotType, hf]
  · simp [contentTypeFor, hf]

/-- C10 witness: a concrete WebP request. -/
theorem lens_c10_webp_png_mislabeled_witness :
    (ScreenshotOptions.format
        { defaultOpts with format := some Format.webp } =
      some Format.webp) ∧
    (screenshotType { defaultOpts with format := some Format.webp } =
        Format.png ∧
      contentTypeFor { defaultOpts with format := some Format.webp } =
        "image/webp") :=
  ⟨rfl, lens_c10_webp_png_mislabeled
    { defaultOpts with format := some Format.webp } rfl⟩
